import Mathlib

/-!
# Verification of the greCy model-install pipeline (install_model.py)

Shallow embedding of src/install_model.py.  The script downloads a spaCy
model wheel from Hugging Face into a cache directory, staging the download
in a ".part" file, renames it to a pip-installable name, installs it with
pip, and reports the installed size.

The embedding models:
  - the filesystem as explicit sets (lists) of file paths and directory
    paths, mutated only through an event trace, so that temporal claims
    can be stated as properties of trace prefixes;
  - each external subprocess by an oracle entry (SubprocessSpec) giving
    its behavior (ran with some exit code / executable not found /
    interrupted) and whether it wrote its designated output file;
  - Python control flow faithfully, in particular the fact that
    sys.exit raises SystemExit, which is a BaseException and is NOT
    caught by an "except Exception" handler.  This distinction is encoded
    by the RunOutcome type: procExit propagates past the
    "except Exception" handlers of main and get_install_info, while
    kbInterrupt is caught by the dedicated KeyboardInterrupt handler in
    main's download block.
-/

namespace GreCy

/-- A filesystem state: the set of existing regular files and the set of
existing directories, each represented as a list of path strings. -/
structure FS where
  files : List String
  dirs : List String
deriving Repr, DecidableEq

/-- os.path.exists for a regular file path. -/
def FS.fileExists (fs : FS) (p : String) : Bool :=
  fs.files.contains p

/-- os.path.isdir. -/
def FS.isDir (fs : FS) (p : String) : Bool :=
  fs.dirs.contains p

/-- Observable filesystem / subprocess events of one run, in order. -/
inductive Event where
  | mkdirE (path : String)
  | runCmdE (cmd : List String)
  | writeFileE (path : String)
  | removeFileE (path : String)
  | moveFileE (src dst : String)
deriving Repr, DecidableEq

/-- Effect of a single event on the filesystem.  os.makedirs adds a
directory; a subprocess invocation by itself changes nothing (its writes
are separate writeFileE events); os.remove deletes a file; shutil.move
removes the source and creates the destination. -/
def applyEvent (fs : FS) : Event → FS
  | .mkdirE p => { fs with dirs := p :: fs.dirs }
  | .runCmdE _ => fs
  | .writeFileE p => { fs with files := p :: fs.files }
  | .removeFileE p => { fs with files := fs.files.filter (fun q => q ≠ p) }
  | .moveFileE src dst =>
      { fs with files := dst :: fs.files.filter (fun q => q ≠ src) }

/-- Replay a list of events from an initial filesystem. -/
def applyEvents (fs : FS) : List Event → FS
  | [] => fs
  | e :: es => applyEvents (applyEvent fs e) es

/-- Result of a subprocess that actually ran to completion. -/
structure CmdResult where
  exitCode : Nat
  stdout : String
  stderr : String
deriving Repr, DecidableEq

/-- How a subprocess invocation behaves: it runs to completion with a
result, the executable is missing (FileNotFoundError), or the user
interrupts it (KeyboardInterrupt). -/
inductive CmdBehavior where
  | runs (r : CmdResult)
  | notFound (filename : String)
  | interrupted
deriving Repr, DecidableEq

/-- Oracle entry for one subprocess invocation: its behavior, and whether
it created its designated output file (used for download commands, which
are invoked with an explicit output path; the HTTP client writes only to
that path, possibly partially, even when it fails). -/
structure SubprocessSpec where
  behavior : CmdBehavior
  wrote : Bool
deriving Repr, DecidableEq

/-- Behavior assumed when the oracle list is exhausted: a silent success
that writes nothing. -/
def defaultSpec : SubprocessSpec :=
  { behavior := .runs { exitCode := 0, stdout := "", stderr := "" }, wrote := false }

/-- Does this oracle entry describe a subprocess that ran and exited 0? -/
def SubprocessSpec.succeeds (sp : SubprocessSpec) : Bool :=
  match sp.behavior with
  | .runs r => r.exitCode == 0
  | _ => false

/-- Running state threaded through the pipeline: filesystem, event trace
so far, stderr lines, stdout lines, and remaining subprocess oracle. -/
structure St where
  fs : FS
  trace : List Event
  errs : List String
  outs : List String
  specs : List SubprocessSpec
deriving Repr, DecidableEq

/-- Perform an event: apply it to the filesystem and append it to the
trace.  All filesystem mutation goes through this function, so the
invariant fs = applyEvents fs0 trace holds throughout a run. -/
def St.doEvent (s : St) (e : Event) : St :=
  { s with fs := applyEvent s.fs e, trace := s.trace ++ [e] }

/-- Print a line to stderr. -/
def St.err (s : St) (m : String) : St :=
  { s with errs := s.errs ++ [m] }

/-- Print a line to stdout. -/
def St.out (s : St) (m : String) : St :=
  { s with outs := s.outs ++ [m] }

/-- Pop the next subprocess oracle entry. -/
def St.takeSpec (s : St) : SubprocessSpec × St :=
  match s.specs with
  | [] => (defaultSpec, s)
  | sp :: rest => (sp, { s with specs := rest })

/-- Control-flow outcome of a helper that may terminate the process.
procExit models sys.exit (SystemExit: not caught by except Exception);
kbInterrupt models a propagating KeyboardInterrupt. -/
inductive RunOutcome where
  | ok (stdout : String)
  | procExit (code : Nat)
  | kbInterrupt
deriving Repr, DecidableEq

/-- The six ASCII whitespace characters str.strip() removes. -/
def isPySpace (c : Char) : Bool :=
  c = ' ' || c = '\t' || c = '\n' || c = '\x0b' || c = '\x0c' || c = '\r'

/-- Python str.strip(): drop whitespace from both ends. -/
def pyStrip (s : String) : String :=
  ⟨((s.data.dropWhile isPySpace).reverse.dropWhile isPySpace).reverse⟩

/-- The line structure used by re.MULTILINE: split at newline
characters. -/
def splitLinesAux : List Char → List (List Char)
  | [] => [[]]
  | c :: cs =>
      let r := splitLinesAux cs
      if c = '\n' then [] :: r
      else
        match r with
        | [] => [[c]]
        | l :: ls => (c :: l) :: ls

def splitLines (s : String) : List String :=
  (splitLinesAux s.data).map (fun l => ⟨l⟩)

/-- str.startswith on the underlying character lists. -/
def startsWithChars : List Char → List Char → Bool
  | [], _ => true
  | _ :: _, [] => false
  | p :: ps, c :: cs => p == c && startsWithChars ps cs

/-- The body of run_command (install_model.py lines 25-57) once the
oracle entry sp for this invocation is fixed.  On a CalledProcessError it
prints the return code, the command line and the captured streams to
stderr and calls sys.exit(1); on FileNotFoundError it prints the missing
executable and calls sys.exit(1).  writePath is the output path the
subprocess was directed to write (some path for download commands). -/
def run_command_core (cmd : List String) (capture : Bool) (writePath : Option String)
    (sp : SubprocessSpec) (s1 : St) : RunOutcome × St :=
  let s2 := (s1.out ("Running: " ++ " ".intercalate cmd)).doEvent (.runCmdE cmd)
  let s3 := match writePath with
    | some p => if sp.wrote then s2.doEvent (.writeFileE p) else s2
    | none => s2
  match sp.behavior with
  | .runs r =>
      if r.exitCode == 0 then
        let s4 :=
          if capture then s3
          else
            let s4a := if pyStrip r.stdout ≠ "" then s3.out r.stdout else s3
            if pyStrip r.stderr ≠ "" then s4a.err r.stderr else s4a
        (.ok r.stdout, s4)
      else
        let s4 := s3.err ("Error: Command failed with return code " ++ toString r.exitCode)
        let s5 := s4.err ("Command: " ++ " ".intercalate cmd)
        let s6 := if r.stdout ≠ "" then s5.err ("STDOUT: " ++ r.stdout) else s5
        let s7 := if r.stderr ≠ "" then s6.err ("STDERR: " ++ r.stderr) else s6
        (.procExit 1, s7)
  | .notFound f =>
      (.procExit 1, s3.err ("Error: Command not found: " ++ f))
  | .interrupted =>
      (.kbInterrupt, s3)

/-- Embedding of run_command: consume the next oracle entry and run the
core. -/
def run_command (cmd : List String) (capture : Bool) (writePath : Option String)
    (s : St) : RunOutcome × St :=
  let (sp, s1) := s.takeSpec
  run_command_core cmd capture writePath sp s1

/-- Embedding of get_download_command (lines 59-67): none means the
function printed an unsupported-platform error and called sys.exit(1). -/
def get_download_command (system url output_path : String) : Option (List String) :=
  if system = "Linux" ∨ system = "Darwin" then
    some ["curl", "-f", "-sL", "-o", output_path, url]
  else if system = "Windows" then
    some ["powershell", "-Command",
      "Invoke-WebRequest -Uri \x27" ++ url ++ "\x27 -OutFile \x27" ++ output_path ++ "\x27"]
  else
    none

/-- Embedding of Python str.replace applied with a single-character
pattern, as in model_name.replace(underscore, hyphen) on line 112. -/
def replaceUnderscore (s : String) : String :=
  ⟨s.data.map (fun c => if c = '_' then '-' else c)⟩

/-- The interpreter executable, sys.executable. -/
def pythonExe : String := "python"

/-- The naming rule of main (lines 122-130): identifier to
(file_name_to_download, file_to_install, needs_rename). -/
def namingRule (model_name : String) : String × String × Bool :=
  if model_name = "grc_proiel_trf" then
    ("grc_proiel_trf-3.7.5-py3-none-any.whl", "grc_proiel_trf-3.7.5-py3-none-any.whl", false)
  else
    (model_name ++ "-any-py3-none-any.whl", model_name ++ "-0.0.0-py3-none-any.whl", true)

/-- cache_dir (line 117): expanduser home joined with .cache/grecy_models. -/
def cacheDirOf (home : String) : String :=
  home ++ "/.cache/grecy_models"

/-- installable_path (line 135). -/
def installablePathOf (home model_name : String) : String :=
  cacheDirOf home ++ "/" ++ (namingRule model_name).2.1

/-- The remote URL (line 132). -/
def urlOf (model_name : String) : String :=
  "https://huggingface.co/Jacobo/" ++ model_name ++ "/resolve/main/" ++
    (namingRule model_name).1

/-- The pip install command of line 183. -/
def pipInstallCmd (installable_path : String) : List String :=
  [pythonExe, "-m", "pip", "install", "--user", installable_path]

/-- The pip show command of line 75. -/
def pipShowCmd (package_name : String) : List String :=
  [pythonExe, "-m", "pip", "show", package_name]

/-- The line-oriented match for the regex Location-colon-space capture
with the MULTILINE flag (line 78): the first line that starts with
"Location: " and has at least one further character; the captured group
is everything after the marker, then stripped (line 83). -/
def findLocation : List String → Option String
  | [] => none
  | l :: ls =>
      if startsWithChars "Location: ".data l.data && decide (l.length > 10) then
        some (pyStrip (l.drop 10))
      else
        findLocation ls

/-- Outcome of one run of the whole process. -/
structure RunResult where
  exitCode : Nat
  fs : FS
  trace : List Event
  errs : List String
  outs : List String
deriving Repr, DecidableEq

/-- Terminate the process with the given exit status. -/
def finish (code : Nat) (s : St) : RunResult :=
  { exitCode := code, fs := s.fs, trace := s.trace, errs := s.errs, outs := s.outs }

/-- Embedding of get_install_info (lines 69-104).  The body is wrapped in
try/except Exception; but run_command terminates the process via
sys.exit (SystemExit), which that handler does not catch, so a failing
pip show propagates as procExit.  The missing-Location and
missing-directory cases print an informational message and return.  The
os.walk size accumulation (lines 93-101) cannot raise in this model and
only produces an informational stdout line, which we record abstractly. -/
def get_install_info (package_name model_name : String) (s : St) : RunOutcome × St :=
  let s0 := s.out "--- Model Installation Details ---"
  match run_command (pipShowCmd package_name) true none s0 with
  | (.ok output, s1) =>
      match findLocation (splitLines output) with
      | none =>
          (.ok "", s1.out ("Could not find \x27Location:\x27 in \x27pip show "
            ++ package_name ++ "\x27 output."))
      | some location =>
          let model_path := location ++ "/" ++ model_name
          if s1.fs.isDir model_path then
            (.ok "", (s1.out ("Model: " ++ model_name)).out
              ("Install Path: " ++ model_path))
          else
            (.ok "", s1.out ("Error: Could not find model directory at: " ++ model_path))
  | (.procExit c, s1) => (.procExit c, s1)
  | (.kbInterrupt, s1) => (.kbInterrupt, s1)

/-- The install step and the diagnostic report (lines 181-188).  A
KeyboardInterrupt escaping main is rendered by the interpreter as exit
status 130. -/
def installAndReport (installable_path package_name model_name : String)
    (s : St) : RunResult :=
  match run_command (pipInstallCmd installable_path) false none s with
  | (.ok _, s1) =>
      let s2 := s1.out ("--- Successfully downloaded and installed " ++ package_name ++ " ---")
      match get_install_info package_name model_name s2 with
      | (.ok _, s3) => finish 0 s3
      | (.procExit c, s3) => finish c s3
      | (.kbInterrupt, s3) => finish 130 s3
  | (.procExit c, s1) => finish c s1
  | (.kbInterrupt, s1) => finish 130 s1

/-- The world a run happens in: platform.system(), sys.argv, the user's
home directory, and the oracle for each subprocess invocation in order. -/
structure World where
  platform : String
  argv : List String
  home : String
  specs : List SubprocessSpec
deriving Repr, DecidableEq

/-- The try block of main once the download command exists (lines
149-179): run the download into the staging path, promote the staging
file by the atomic move, rename when required, then install and report.
Parameters are the values main binds before the try block.

Faithful control-flow notes:
  - run_command executes inside the try block of main; a sys.exit raised
    by it is a SystemExit, which neither "except Exception" nor
    "except KeyboardInterrupt" catches, so NO staging-file cleanup
    happens on that path;
  - shutil.move raises (an OSError, caught by "except Exception" with
    staging cleanup) when its source file does not exist; otherwise it
    succeeds;
  - a KeyboardInterrupt from the download subprocess is caught and the
    staging file removed before sys.exit(1). -/
def downloadAttempt (download_cmd : List String)
    (download_path_tmp download_path_hf installable_path : String)
    (needs_rename : Bool) (package_name model_name : String) (s2 : St) : RunResult :=
  match run_command download_cmd false (some download_path_tmp) s2 with
  | (.ok _, s3) =>
      if s3.fs.fileExists download_path_tmp then
        let s4 := (s3.doEvent (.moveFileE download_path_tmp download_path_hf)).out
          "Download complete."
        if needs_rename then
          if s4.fs.fileExists download_path_hf then
            let s5 := s4.doEvent (.moveFileE download_path_hf installable_path)
            installAndReport installable_path package_name model_name s5
          else
            let s5 := s4.err "An unexpected error occurred during download."
            let s6 := if s5.fs.fileExists download_path_tmp then
                s5.doEvent (.removeFileE download_path_tmp)
              else s5
            finish 1 s6
        else
          installAndReport installable_path package_name model_name s4
      else
        let s4 := s3.err "An unexpected error occurred during download."
        let s5 := if s4.fs.fileExists download_path_tmp then
            s4.doEvent (.removeFileE download_path_tmp)
          else s4
        finish 1 s5
  | (.procExit c, s3) =>
      finish c s3
  | (.kbInterrupt, s3) =>
      let s4 := s3.err "Download interrupted. Cleaning up partial file."
      let s5 := if s4.fs.fileExists download_path_tmp then
          s4.doEvent (.removeFileE download_path_tmp)
        else s4
      finish 1 s5

def downloadPhase (platform model_name package_name cache_dir : String) (s1 : St) : RunResult :=
  let nr := namingRule model_name
  let file_name_to_download := nr.1
  let file_to_install := nr.2.1
  let needs_rename := nr.2.2
  let url := urlOf model_name
  let installable_path := cache_dir ++ "/" ++ file_to_install
  let s2 := s1.out "Cached model not found. Starting download..."
  let download_path_hf := cache_dir ++ "/" ++ file_name_to_download
  let download_path_tmp := download_path_hf ++ ".part"
  match get_download_command platform url download_path_tmp with
  | none =>
      finish 1 (s2.err ("Unsupported operating system: " ++ platform))
  | some download_cmd =>
      downloadAttempt download_cmd download_path_tmp download_path_hf installable_path
        needs_rename package_name model_name s2

/-- Embedding of main (lines 106-188) applied to an initial filesystem.
The cache directory is created (os.makedirs) before anything else; the
cache check (line 138) tests os.path.exists(installable_path); a hit
skips straight to the install step, a miss enters the downloadPhase. -/
def runMain (w : World) (fs0 : FS) : RunResult :=
  let s0 : St := { fs := fs0, trace := [], errs := [], outs := [], specs := w.specs }
  match w.argv with
  | [] =>
      finish 1 s0
  | [prog] =>
      finish 1 (s0.err ("Usage: python " ++ prog ++ " <model_name>"))
  | _prog :: model_name :: _ =>
      let package_name := replaceUnderscore model_name
      let cache_dir := cacheDirOf w.home
      let s1 := (s0.out ("--- Starting manual install for model: " ++ model_name ++ " ---")).doEvent
        (.mkdirE cache_dir)
      let s1 := s1.out ("Using cache directory: " ++ cache_dir)
      let installable_path := cache_dir ++ "/" ++ (namingRule model_name).2.1
      if s1.fs.fileExists installable_path then
        let s2 := (s1.out "Found cached model. Skipping download.").out
          ("Using file: " ++ installable_path)
        installAndReport installable_path package_name model_name s2
      else
        downloadPhase w.platform model_name package_name cache_dir s1

/-- Is this command a download subprocess (the platform HTTP client)? -/
def isDownloadCmd (c : List String) : Bool :=
  match c with
  | e :: _ => e == "curl" || e == "powershell"
  | [] => false

/-- Number of download subprocess invocations recorded in a trace. -/
def countDownloads (tr : List Event) : Nat :=
  (tr.filter (fun e =>
    match e with
    | .runCmdE c => isDownloadCmd c
    | _ => false)).length

/-- The subprocess oracle entry consumed by the first invocation. -/
def firstSpecOf (w : World) : SubprocessSpec :=
  w.specs.headD defaultSpec

/-! ## Concrete scenario data -/

/-- The empty filesystem. -/
def fs0Empty : FS := { files := [], dirs := [] }

/-- Oracle entry: the subprocess runs and exits 0 silently. -/
def okSpec : SubprocessSpec :=
  { behavior := .runs { exitCode := 0, stdout := "", stderr := "" }, wrote := false }

/-- Oracle entry: the download runs, writes partial bytes to the staging
path, and exits 22 (curl fail-on-HTTP-error). -/
def failedDownloadSpec : SubprocessSpec :=
  { behavior := .runs
      { exitCode := 22, stdout := "",
        stderr := "curl: (22) The requested URL returned error: 404" },
    wrote := true }

/-- Oracle entry: the download succeeds and writes the staging file. -/
def okDownloadSpec : SubprocessSpec :=
  { behavior := .runs { exitCode := 0, stdout := "", stderr := "" }, wrote := true }

/-- Oracle entry: pip show exits 1 (package metadata not found). -/
def pipShowFailSpec : SubprocessSpec :=
  { behavior := .runs
      { exitCode := 1, stdout := "", stderr := "WARNING: Package(s) not found: foo-bar" },
    wrote := false }

/-- Oracle entry: pip show succeeds but its output has no Location
line. -/
def pipShowNoLocationSpec : SubprocessSpec :=
  { behavior := .runs { exitCode := 0, stdout := "Name: foo-bar", stderr := "" },
    wrote := false }

/-- Oracle entry: pip show succeeds with a Location line. -/
def pipShowWithLocationSpec : SubprocessSpec :=
  { behavior := .runs
      { exitCode := 0, stdout := "Name: foo-bar\nLocation: /site\n", stderr := "" },
    wrote := false }

/-- A filesystem holding exactly the cached installable wheel for
foo_bar under home /h. -/
def fsHitFooBar : FS :=
  { files := ["/h/.cache/grecy_models/foo_bar-0.0.0-py3-none-any.whl"], dirs := [] }

/-- World: Linux, model foo_bar, download fails with partial bytes. -/
def wFailedDownload : World :=
  { platform := "Linux", argv := ["install_model.py", "foo_bar"], home := "/h",
    specs := [failedDownloadSpec] }

/-- World: Linux, model foo_bar, download and install and metadata query
all succeed. -/
def wAllOk : World :=
  { platform := "Linux", argv := ["install_model.py", "foo_bar"], home := "/h",
    specs := [okDownloadSpec, okSpec, okSpec] }

/-- World: Linux, model foo_bar, install and metadata query succeed (for
a second, cache-hit run). -/
def wSecondRun : World :=
  { platform := "Linux", argv := ["install_model.py", "foo_bar"], home := "/h",
    specs := [okSpec, okSpec] }

/-- World: Linux, model foo_bar, install succeeds but pip show exits 1. -/
def wShowFail : World :=
  { platform := "Linux", argv := ["install_model.py", "foo_bar"], home := "/h",
    specs := [okSpec, pipShowFailSpec] }

/-- Oracle entry: the installer exits 2 with captured output. -/
def pipInstallFailSpec : SubprocessSpec :=
  { behavior := .runs
      { exitCode := 2, stdout := "Processing wheel", stderr := "ERROR: not a valid wheel" },
    wrote := false }

/-- World: Linux, model foo_bar, installer exits 2 with captured
output. -/
def wInstallFail : World :=
  { platform := "Linux", argv := ["install_model.py", "foo_bar"], home := "/h",
    specs := [pipInstallFailSpec] }

/-- World: unsupported platform, model foo_bar. -/
def wAmiga : World :=
  { platform := "Amiga", argv := ["install_model.py", "foo_bar"], home := "/h",
    specs := [] }

/-- World: a run with no positional argument. -/
def wNoArg : World :=
  { platform := "Linux", argv := ["install_model.py"], home := "/h", specs := [] }

/-- World: install succeeds, pip show output has no Location line. -/
def wNoLocation : World :=
  { platform := "Linux", argv := ["p", "foo_bar"], home := "/h",
    specs := [okSpec, pipShowNoLocationSpec] }

/-- World: install succeeds, pip show has a Location but the model
directory does not exist. -/
def wDirMissing : World :=
  { platform := "Linux", argv := ["p", "foo_bar"], home := "/h",
    specs := [okSpec, pipShowWithLocationSpec] }

/-- World: Linux, the special-cased identifier grc_proiel_trf. -/
def wStaleCache : World :=
  { platform := "Linux", argv := ["install_model.py", "grc_proiel_trf"], home := "/h",
    specs := [] }

/-- A cache holding a grc_proiel_trf wheel under the generic 0.0.0 name,
not the pinned 3.7.5 name. -/
def fsWrongName : FS :=
  { files := ["/h/.cache/grecy_models/grc_proiel_trf-0.0.0-py3-none-any.whl"], dirs := [] }

/-! ## Projection lemmas for the state helpers -/

@[simp] theorem St.out_fs (s : St) (m : String) : (s.out m).fs = s.fs := rfl

@[simp] theorem St.out_trace (s : St) (m : String) : (s.out m).trace = s.trace := rfl

@[simp] theorem St.out_specs (s : St) (m : String) : (s.out m).specs = s.specs := rfl

@[simp] theorem St.out_errs (s : St) (m : String) : (s.out m).errs = s.errs := rfl

@[simp] theorem St.err_fs (s : St) (m : String) : (s.err m).fs = s.fs := rfl

@[simp] theorem St.err_trace (s : St) (m : String) : (s.err m).trace = s.trace := rfl

@[simp] theorem St.err_specs (s : St) (m : String) : (s.err m).specs = s.specs := rfl

@[simp] theorem St.err_errs (s : St) (m : String) : (s.err m).errs = s.errs ++ [m] := rfl

@[simp] theorem St.doEvent_fs (s : St) (e : Event) : (s.doEvent e).fs = applyEvent s.fs e := rfl

@[simp] theorem St.doEvent_trace (s : St) (e : Event) :
    (s.doEvent e).trace = s.trace ++ [e] := rfl

@[simp] theorem St.doEvent_specs (s : St) (e : Event) : (s.doEvent e).specs = s.specs := rfl

@[simp] theorem St.doEvent_errs (s : St) (e : Event) : (s.doEvent e).errs = s.errs := rfl

@[simp] theorem applyEvent_mkdir_files (fs : FS) (p : String) :
    (applyEvent fs (.mkdirE p)).files = fs.files := rfl

@[simp] theorem applyEvent_runCmd (fs : FS) (c : List String) :
    applyEvent fs (.runCmdE c) = fs := rfl

@[simp] theorem fileExists_mkdir (fs : FS) (p q : String) :
    (applyEvent fs (.mkdirE p)).fileExists q = fs.fileExists q := rfl

@[simp] theorem fileExists_move_dst (fs : FS) (a b : String) :
    (applyEvent fs (.moveFileE a b)).fileExists b = true := by
  simp [applyEvent, FS.fileExists]

theorem fileExists_iff_mem (fs : FS) (p : String) :
    fs.fileExists p = true ↔ p ∈ fs.files := by
  simp [FS.fileExists]

/-! ## Structural lemmas about run_command -/

/-- takeSpec in closed form. -/
theorem takeSpec_eq (s : St) :
    s.takeSpec = (s.specs.headD defaultSpec, { s with specs := s.specs.tail }) := by
  cases s with
  | mk fs tr er ou sp => cases sp <;> rfl

/-- run_command in terms of its core. -/
theorem run_command_eq (cmd : List String) (cap : Bool) (wp : Option String) (s : St) :
    run_command cmd cap wp s =
      run_command_core cmd cap wp (s.specs.headD defaultSpec)
        { s with specs := s.specs.tail } := by
  unfold run_command
  rw [takeSpec_eq]

/-- run_command_core appends the invocation event to the trace, followed
only by a possible write to the designated output path. -/
theorem run_command_core_trace (cmd : List String) (cap : Bool) (wp : Option String)
    (sp : SubprocessSpec) (s : St) :
    ∃ t, (run_command_core cmd cap wp sp s).2.trace = s.trace ++ Event.runCmdE cmd :: t ∧
      ∀ e ∈ t, ∃ q, e = Event.writeFileE q ∧ wp = some q := by
  unfold run_command_core
  rcases hb : sp.behavior with r | f | _ <;> rcases wp with _ | q <;> simp only [hb]
  · refine ⟨[], ?_, by simp⟩
    split_ifs <;> simp
  · by_cases hw : sp.wrote
    · refine ⟨[Event.writeFileE q], ?_, by simp⟩
      simp only [hw]
      split_ifs <;> simp
    · refine ⟨[], ?_, by simp⟩
      simp only [hw]
      split_ifs <;> simp_all
  · exact ⟨[], by simp, by simp⟩
  · by_cases hw : sp.wrote
    · exact ⟨[Event.writeFileE q], by simp [hw], by simp⟩
    · exact ⟨[], by simp [hw], by simp⟩
  · exact ⟨[], by simp, by simp⟩
  · by_cases hw : sp.wrote
    · exact ⟨[Event.writeFileE q], by simp [hw], by simp⟩
    · exact ⟨[], by simp [hw], by simp⟩

/-- With no designated output path the trace grows by exactly the
invocation event. -/
theorem run_command_core_none_trace (cmd : List String) (cap : Bool)
    (sp : SubprocessSpec) (s : St) :
    (run_command_core cmd cap none sp s).2.trace = s.trace ++ [Event.runCmdE cmd] := by
  obtain ⟨t, ht, hw⟩ := run_command_core_trace cmd cap none sp s
  rcases t with _ | ⟨e, t⟩
  · simpa using ht
  · obtain ⟨q, _, hq⟩ := hw e (by simp)
    cases hq

/-- With no designated output path the filesystem is unchanged. -/
theorem run_command_core_none_fs (cmd : List String) (cap : Bool)
    (sp : SubprocessSpec) (s : St) :
    (run_command_core cmd cap none sp s).2.fs = s.fs := by
  unfold run_command_core
  rcases hb : sp.behavior with r | f | _ <;> simp only [hb] <;> (try split_ifs) <;> simp

/-- The filesystem effect of a command directed to write at q. -/
theorem run_command_core_some_fs (cmd : List String) (cap : Bool) (q : String)
    (sp : SubprocessSpec) (s : St) :
    (run_command_core cmd cap (some q) sp s).2.fs =
      if sp.wrote then applyEvent s.fs (.writeFileE q) else s.fs := by
  unfold run_command_core
  rcases hb : sp.behavior with r | f | _ <;> simp only [hb] <;> (try split_ifs) <;> simp_all

/-- The oracle list is untouched by the core (it was consumed by
takeSpec). -/
theorem run_command_core_specs (cmd : List String) (cap : Bool) (wp : Option String)
    (sp : SubprocessSpec) (s : St) :
    (run_command_core cmd cap wp sp s).2.specs = s.specs := by
  unfold run_command_core
  rcases hb : sp.behavior with r | f | _ <;> rcases wp with _ | q <;>
    simp only [hb] <;> (try split_ifs) <;> simp

/-- The control-flow outcome of run_command_core depends only on the
oracle entry: exit-0 runs return the captured stdout, every other run or
a missing executable terminates the process via sys.exit(1), and an
interrupt propagates as KeyboardInterrupt. -/
theorem run_command_core_outcome (cmd : List String) (cap : Bool) (wp : Option String)
    (sp : SubprocessSpec) (s : St) :
    (run_command_core cmd cap wp sp s).1 =
      match sp.behavior with
      | .runs r => if r.exitCode == 0 then .ok r.stdout else .procExit 1
      | .notFound _ => .procExit 1
      | .interrupted => .kbInterrupt := by
  unfold run_command_core
  rcases hb : sp.behavior with r | f | _ <;> rcases wp with _ | q <;>
    simp only [hb] <;> (try split_ifs) <;> simp_all

/-- Stderr lines already printed are preserved by run_command_core. -/
theorem run_command_core_errs_mono (cmd : List String) (cap : Bool) (wp : Option String)
    (sp : SubprocessSpec) (s : St) :
    ∃ l, (run_command_core cmd cap wp sp s).2.errs = s.errs ++ l := by
  unfold run_command_core
  rcases hb : sp.behavior with r | f | _ <;> rcases wp with _ | q <;>
    simp only [hb] <;> (try split_ifs) <;>
    simp only [St.err_errs, St.out_errs, St.doEvent_errs, List.append_assoc] <;>
    first
      | exact ⟨_, rfl⟩
      | exact ⟨[], by simp⟩

/-- run_command wrapper of run_command_core_none_trace. -/
theorem run_command_none_trace (cmd : List String) (cap : Bool) (s : St) :
    (run_command cmd cap none s).2.trace = s.trace ++ [Event.runCmdE cmd] := by
  rw [run_command_eq]
  simpa using run_command_core_none_trace cmd cap (s.specs.headD defaultSpec)
    { s with specs := s.specs.tail }

/-- run_command wrapper of run_command_core_none_fs. -/
theorem run_command_none_fs (cmd : List String) (cap : Bool) (s : St) :
    (run_command cmd cap none s).2.fs = s.fs := by
  rw [run_command_eq]
  simpa using run_command_core_none_fs cmd cap (s.specs.headD defaultSpec)
    { s with specs := s.specs.tail }

/-- run_command consumes exactly one oracle entry. -/
theorem run_command_specs (cmd : List String) (cap : Bool) (wp : Option String) (s : St) :
    (run_command cmd cap wp s).2.specs = s.specs.tail := by
  rw [run_command_eq]
  simpa using run_command_core_specs cmd cap wp (s.specs.headD defaultSpec)
    { s with specs := s.specs.tail }

/-- run_command outcome in terms of the next oracle entry. -/
theorem run_command_outcome (cmd : List String) (cap : Bool) (wp : Option String) (s : St) :
    (run_command cmd cap wp s).1 =
      match (s.specs.headD defaultSpec).behavior with
      | .runs r => if r.exitCode == 0 then .ok r.stdout else .procExit 1
      | .notFound _ => .procExit 1
      | .interrupted => .kbInterrupt := by
  rw [run_command_eq]
  exact run_command_core_outcome cmd cap wp (s.specs.headD defaultSpec)
    { s with specs := s.specs.tail }

/-- run_command wrapper of run_command_core_trace. -/
theorem run_command_trace (cmd : List String) (cap : Bool) (wp : Option String) (s : St) :
    ∃ t, (run_command cmd cap wp s).2.trace = s.trace ++ Event.runCmdE cmd :: t ∧
      ∀ e ∈ t, ∃ q, e = Event.writeFileE q ∧ wp = some q := by
  rw [run_command_eq]
  simpa using run_command_core_trace cmd cap wp (s.specs.headD defaultSpec)
    { s with specs := s.specs.tail }

/-- run_command wrapper of run_command_core_some_fs. -/
theorem run_command_some_fs (cmd : List String) (cap : Bool) (q : String) (s : St) :
    (run_command cmd cap (some q) s).2.fs =
      if (s.specs.headD defaultSpec).wrote then applyEvent s.fs (.writeFileE q)
      else s.fs := by
  rw [run_command_eq]
  simpa using run_command_core_some_fs cmd cap q (s.specs.headD defaultSpec)
    { s with specs := s.specs.tail }

/-- run_command wrapper of run_command_core_errs_mono. -/
theorem run_command_errs_mono (cmd : List String) (cap : Bool) (wp : Option String) (s : St) :
    ∃ l, (run_command cmd cap wp s).2.errs = s.errs ++ l := by
  rw [run_command_eq]
  simpa using run_command_core_errs_mono cmd cap wp (s.specs.headD defaultSpec)
    { s with specs := s.specs.tail }

/-- Diagnostic context printed when the subprocess runs but exits
non-zero: the return code, the full command line, and the captured
streams when non-empty, all on stderr; then sys.exit(1). -/
theorem run_command_core_fail (cmd : List String) (cap : Bool) (wp : Option String)
    (sp : SubprocessSpec) (s : St) (r : CmdResult)
    (hb : sp.behavior = .runs r) (h0 : r.exitCode ≠ 0) :
    (run_command_core cmd cap wp sp s).1 = .procExit 1 ∧
    ("Error: Command failed with return code " ++ toString r.exitCode)
      ∈ (run_command_core cmd cap wp sp s).2.errs ∧
    ("Command: " ++ " ".intercalate cmd) ∈ (run_command_core cmd cap wp sp s).2.errs ∧
    (r.stdout ≠ "" → ("STDOUT: " ++ r.stdout) ∈ (run_command_core cmd cap wp sp s).2.errs) ∧
    (r.stderr ≠ "" → ("STDERR: " ++ r.stderr) ∈ (run_command_core cmd cap wp sp s).2.errs) := by
  unfold run_command_core
  have h0b : (r.exitCode == 0) = false := by simpa using h0
  rcases wp with _ | q <;> simp only [hb, h0b] <;> (try split_ifs) <;> simp_all

/-- run_command wrapper of run_command_core_fail. -/
theorem run_command_fail (cmd : List String) (cap : Bool) (wp : Option String) (s : St)
    (r : CmdResult) (hb : (s.specs.headD defaultSpec).behavior = .runs r)
    (h0 : r.exitCode ≠ 0) :
    (run_command cmd cap wp s).1 = .procExit 1 ∧
    ("Error: Command failed with return code " ++ toString r.exitCode)
      ∈ (run_command cmd cap wp s).2.errs ∧
    ("Command: " ++ " ".intercalate cmd) ∈ (run_command cmd cap wp s).2.errs ∧
    (r.stdout ≠ "" → ("STDOUT: " ++ r.stdout) ∈ (run_command cmd cap wp s).2.errs) ∧
    (r.stderr ≠ "" → ("STDERR: " ++ r.stderr) ∈ (run_command cmd cap wp s).2.errs) := by
  rw [run_command_eq]
  exact run_command_core_fail cmd cap wp (s.specs.headD defaultSpec)
    { s with specs := s.specs.tail } r hb h0

/-! ## Structural lemmas about get_install_info and installAndReport -/

/-- get_install_info appends exactly the metadata-query invocation to the
trace. -/
theorem get_install_info_trace (p m : String) (s : St) :
    (get_install_info p m s).2.trace = s.trace ++ [Event.runCmdE (pipShowCmd p)] := by
  unfold get_install_info
  rcases h : run_command (pipShowCmd p) true none
      (s.out "--- Model Installation Details ---") with ⟨o, s1⟩
  have hs1 : (run_command (pipShowCmd p) true none
      (s.out "--- Model Installation Details ---")).2 = s1 := by rw [h]
  have ht : s1.trace = s.trace ++ [Event.runCmdE (pipShowCmd p)] := by
    rw [← hs1, run_command_none_trace]
    simp
  cases o <;> simp [h, ht] <;> split <;> (try split_ifs) <;> simp [ht]

/-- get_install_info never changes the filesystem. -/
theorem get_install_info_fs (p m : String) (s : St) :
    (get_install_info p m s).2.fs = s.fs := by
  unfold get_install_info
  rcases h : run_command (pipShowCmd p) true none
      (s.out "--- Model Installation Details ---") with ⟨o, s1⟩
  have hs1 : (run_command (pipShowCmd p) true none
      (s.out "--- Model Installation Details ---")).2 = s1 := by rw [h]
  have hf : s1.fs = s.fs := by
    rw [← hs1, run_command_none_fs]
    simp
  cases o <;> simp [h, hf] <;> split <;> (try split_ifs) <;> simp [hf]

/-- get_install_info outcome: only a metadata-query subprocess that exits
non-zero (or a missing executable) makes it terminate the process; every
parse failure or missing model directory returns normally. -/
theorem get_install_info_outcome (p m : String) (s : St) :
    (get_install_info p m s).1 =
      match (s.specs.headD defaultSpec).behavior with
      | .runs r => if r.exitCode == 0 then .ok "" else .procExit 1
      | .notFound _ => .procExit 1
      | .interrupted => .kbInterrupt := by
  unfold get_install_info
  rcases h : run_command (pipShowCmd p) true none
      (s.out "--- Model Installation Details ---") with ⟨o, s1⟩
  have ho : (run_command (pipShowCmd p) true none
      (s.out "--- Model Installation Details ---")).1 = o := by rw [h]
  rw [run_command_outcome] at ho
  simp only [St.out_specs] at ho
  rcases hb : (s.specs.headD defaultSpec).behavior with r | f | _ <;>
    simp only [hb] at ho ⊢
  · by_cases h0 : (r.exitCode == 0) = true <;> simp only [h0, if_true, if_false] at ho ⊢ <;>
      subst ho <;> simp [h] <;> split <;> (try split_ifs) <;> simp
  · subst ho
    simp [h]
  · subst ho
    simp [h]

/-- The install-and-report phase never changes the filesystem: pip is
not directed at the cache and the inspector only reads. -/
theorem installAndReport_fs (i p m : String) (s : St) :
    (installAndReport i p m s).fs = s.fs := by
  unfold installAndReport
  rcases h : run_command (pipInstallCmd i) false none s with ⟨o, s1⟩
  have hs1 : (run_command (pipInstallCmd i) false none s).2 = s1 := by rw [h]
  have hf : s1.fs = s.fs := by
    rw [← hs1]
    exact run_command_none_fs (pipInstallCmd i) false s
  cases o
  · rcases h2 : get_install_info p m
        (s1.out ("--- Successfully downloaded and installed " ++ p ++ " ---")) with ⟨o2, s2⟩
    have hs2 : (get_install_info p m
        (s1.out ("--- Successfully downloaded and installed " ++ p ++ " ---"))).2 = s2 := by
      rw [h2]
    have hf2 : s2.fs = s.fs := by
      rw [← hs2, get_install_info_fs]
      simpa using hf
    cases o2 <;> simp [h, h2, finish, hf2]
  · simp [h, finish, hf]
  · simp [h, finish, hf]

/-- The install-and-report phase appends the installer invocation
followed only by (at most) the metadata-query invocation. -/
theorem installAndReport_trace (i p m : String) (s : St) :
    ∃ t, (installAndReport i p m s).trace =
        s.trace ++ Event.runCmdE (pipInstallCmd i) :: t ∧
      ∀ e ∈ t, e = Event.runCmdE (pipShowCmd p) := by
  unfold installAndReport
  rcases h : run_command (pipInstallCmd i) false none s with ⟨o, s1⟩
  have hs1 : (run_command (pipInstallCmd i) false none s).2 = s1 := by rw [h]
  have ht : s1.trace = s.trace ++ [Event.runCmdE (pipInstallCmd i)] := by
    rw [← hs1]
    exact run_command_none_trace (pipInstallCmd i) false s
  cases o
  · rcases h2 : get_install_info p m
        (s1.out ("--- Successfully downloaded and installed " ++ p ++ " ---")) with ⟨o2, s2⟩
    have hs2 : (get_install_info p m
        (s1.out ("--- Successfully downloaded and installed " ++ p ++ " ---"))).2 = s2 := by
      rw [h2]
    have ht2 : s2.trace = s.trace ++ [Event.runCmdE (pipInstallCmd i), Event.runCmdE (pipShowCmd p)] := by
      rw [← hs2, get_install_info_trace]
      simp [ht]
    cases o2 <;>
      exact ⟨[Event.runCmdE (pipShowCmd p)], by simp [h, h2, finish, ht2], by simp⟩
  · exact ⟨[], by simp [h, finish, ht], by simp⟩
  · exact ⟨[], by simp [h, finish, ht], by simp⟩

/-- When the installer subprocess succeeds, the phase trace is exactly
the installer invocation followed by the metadata query. -/
theorem installAndReport_ok_trace (i p m : String) (s : St) (r : CmdResult)
    (hb : (s.specs.headD defaultSpec).behavior = .runs r) (h0 : r.exitCode = 0) :
    (installAndReport i p m s).trace =
      s.trace ++ [Event.runCmdE (pipInstallCmd i), Event.runCmdE (pipShowCmd p)] := by
  unfold installAndReport
  rcases h : run_command (pipInstallCmd i) false none s with ⟨o, s1⟩
  have hs1 : (run_command (pipInstallCmd i) false none s).2 = s1 := by rw [h]
  have ht : s1.trace = s.trace ++ [Event.runCmdE (pipInstallCmd i)] := by
    rw [← hs1]
    exact run_command_none_trace (pipInstallCmd i) false s
  have ho : (run_command (pipInstallCmd i) false none s).1 = o := by rw [h]
  rw [run_command_outcome, hb] at ho
  simp only [h0] at ho
  simp only [beq_self_eq_true, if_true] at ho
  subst ho
  rcases h2 : get_install_info p m
      (s1.out ("--- Successfully downloaded and installed " ++ p ++ " ---")) with ⟨o2, s2⟩
  have hs2 : (get_install_info p m
      (s1.out ("--- Successfully downloaded and installed " ++ p ++ " ---"))).2 = s2 := by
    rw [h2]
  have ht2 : s2.trace = s.trace ++ [Event.runCmdE (pipInstallCmd i), Event.runCmdE (pipShowCmd p)] := by
    rw [← hs2, get_install_info_trace]
    simp [ht]
  cases o2 <;> simp [h, h2, finish, ht2]

/-- Install failure (installer subprocess exits non-zero): the process
exits 1, the stderr diagnostics name the exit code, the full install
command line and the captured streams, and the filesystem (hence the
cached artifact) is untouched. -/
theorem installAndReport_fail (i p m : String) (s : St) (r : CmdResult)
    (hb : (s.specs.headD defaultSpec).behavior = .runs r) (h0 : r.exitCode ≠ 0) :
    (installAndReport i p m s).exitCode = 1 ∧
    ("Error: Command failed with return code " ++ toString r.exitCode)
      ∈ (installAndReport i p m s).errs ∧
    ("Command: " ++ " ".intercalate (pipInstallCmd i)) ∈ (installAndReport i p m s).errs ∧
    (r.stdout ≠ "" → ("STDOUT: " ++ r.stdout) ∈ (installAndReport i p m s).errs) ∧
    (r.stderr ≠ "" → ("STDERR: " ++ r.stderr) ∈ (installAndReport i p m s).errs) ∧
    (installAndReport i p m s).fs = s.fs := by
  obtain ⟨ho, h1, h2, h3, h4⟩ := run_command_fail (pipInstallCmd i) false none s r hb h0
  rcases h : run_command (pipInstallCmd i) false none s with ⟨o, s1⟩
  have hs1 : (run_command (pipInstallCmd i) false none s).2 = s1 := by rw [h]
  have hf : s1.fs = s.fs := by
    rw [← hs1]
    exact run_command_none_fs (pipInstallCmd i) false s
  rw [h] at ho h1 h2 h3 h4
  simp only at ho h1 h2 h3 h4
  subst ho
  unfold installAndReport
  rw [h]
  exact ⟨rfl, h1, h2, h3, h4, hf⟩

/-! ## Shape lemmas for runMain -/

/-- A run whose installable path is already cached goes straight to the
install step, from a state whose trace holds only the cache-directory
creation. -/
theorem runMain_hit (w : World) (fs0 : FS) (prog model : String) (rest : List String)
    (ha : w.argv = prog :: model :: rest)
    (hh : fs0.fileExists (installablePathOf w.home model) = true) :
    ∃ s, runMain w fs0 = installAndReport (installablePathOf w.home model)
        (replaceUnderscore model) model s ∧
      s.fs = applyEvent fs0 (.mkdirE (cacheDirOf w.home)) ∧
      s.trace = [Event.mkdirE (cacheDirOf w.home)] ∧
      s.errs = [] ∧
      s.specs = w.specs := by
  rcases w with ⟨pf, av, home, sps⟩
  simp only at ha hh ⊢
  subst ha
  simp only [installablePathOf] at hh ⊢
  unfold runMain
  simp only [St.out_fs, St.doEvent_fs, fileExists_mkdir, hh, if_true]
  exact ⟨_, rfl, by simp, by simp, by simp, by simp⟩

/-- A cache-miss run enters the download phase, from a state whose trace
holds only the cache-directory creation. -/
theorem runMain_miss (w : World) (fs0 : FS) (prog model : String) (rest : List String)
    (ha : w.argv = prog :: model :: rest)
    (hh : fs0.fileExists (installablePathOf w.home model) = false) :
    ∃ s, runMain w fs0 = downloadPhase w.platform model (replaceUnderscore model)
        (cacheDirOf w.home) s ∧
      s.fs = applyEvent fs0 (.mkdirE (cacheDirOf w.home)) ∧
      s.trace = [Event.mkdirE (cacheDirOf w.home)] ∧
      s.errs = [] ∧
      s.specs = w.specs := by
  rcases w with ⟨pf, av, home, sps⟩
  simp only at ha hh ⊢
  subst ha
  simp only [installablePathOf] at hh ⊢
  unfold runMain
  simp only [St.out_fs, St.doEvent_fs, fileExists_mkdir, hh, Bool.false_eq_true, if_false]
  exact ⟨_, rfl, by simp, by simp, by simp, by simp⟩

/-! ## Path and command facts -/

/-- The staging path differs from the path it stages for. -/
theorem append_part_ne (s : String) : s ++ ".part" ≠ s := by
  intro h
  have h2 := congrArg String.length h
  rw [String.length_append] at h2
  have h5 : (".part" : String).length = 5 := rfl
  rw [h5] at h2
  omega

@[simp] theorem isDownloadCmd_pipInstall (i : String) :
    isDownloadCmd (pipInstallCmd i) = false := rfl

@[simp] theorem isDownloadCmd_pipShow (p : String) :
    isDownloadCmd (pipShowCmd p) = false := rfl

/-- Both platform download commands are recognized as downloads. -/
theorem get_download_command_isDownload (sys u o : String) (c : List String)
    (h : get_download_command sys u o = some c) : isDownloadCmd c = true := by
  unfold get_download_command at h
  split_ifs at h
  · injection h with h
    subst h
    rfl
  · injection h with h
    subst h
    rfl

/-- A non-special identifier never maps to the unsupported case: some
command is always returned for the two supported families, none
otherwise. -/
theorem get_download_command_none_iff (sys u o : String) :
    get_download_command sys u o = none ↔
      sys ≠ "Linux" ∧ sys ≠ "Darwin" ∧ sys ≠ "Windows" := by
  unfold get_download_command
  split_ifs with h1 h2 <;> simp_all <;> tauto

/-- If no rename is needed, the remote and installable filenames agree. -/
theorem namingRule_no_rename (m : String) (h : (namingRule m).2.2 = false) :
    (namingRule m).1 = (namingRule m).2.1 := by
  unfold namingRule at h ⊢
  split_ifs at h ⊢ <;> simp_all

/-! ## Outcome inversion for run_command -/

theorem run_command_ok_succeeds (cmd : List String) (cap : Bool) (wp : Option String)
    (s : St) (so : String) (h : (run_command cmd cap wp s).1 = .ok so) :
    (s.specs.headD defaultSpec).succeeds = true := by
  rw [run_command_outcome] at h
  unfold SubprocessSpec.succeeds
  rcases hb : (s.specs.headD defaultSpec).behavior with r | f | _ <;> rw [hb] at h
  · by_cases h0 : (r.exitCode == 0) = true
    · exact h0
    · simp [h0] at h
  · simp at h
  · simp at h

theorem run_command_procExit_one (cmd : List String) (cap : Bool) (wp : Option String)
    (s : St) (c : Nat) (h : (run_command cmd cap wp s).1 = .procExit c) : c = 1 := by
  rw [run_command_outcome] at h
  rcases hb : (s.specs.headD defaultSpec).behavior with r | f | _ <;> rw [hb] at h
  · by_cases h0 : (r.exitCode == 0) = true <;> simp [h0] at h
    omega
  · simp at h
    omega
  · simp at h

/-! ## Staging-file creation analysis -/

/-- Does an event create the file at path p? -/
def createsFile (e : Event) (p : String) : Prop :=
  e = Event.writeFileE p ∨ ∃ src, e = Event.moveFileE src p

theorem not_mem_applyEvent (fs : FS) (p : String) (e : Event)
    (hp : p ∉ fs.files) (hc : ¬ createsFile e p) :
    p ∉ (applyEvent fs e).files := by
  cases e with
  | mkdirE q => simpa [applyEvent] using hp
  | runCmdE c => simpa [applyEvent] using hp
  | writeFileE q =>
      simp only [applyEvent, List.mem_cons]
      rintro (h | h)
      · exact hc (Or.inl (by rw [h]))
      · exact hp h
  | removeFileE q =>
      simp only [applyEvent]
      intro h
      exact hp (List.mem_of_mem_filter h)
  | moveFileE src dst =>
      simp only [applyEvent, List.mem_cons]
      rintro (h | h)
      · exact hc (Or.inr ⟨src, by rw [h]⟩)
      · exact hp (List.mem_of_mem_filter h)

/-- A file absent initially stays absent along any event list none of
whose events creates it. -/
theorem not_mem_applyEvents (fs : FS) (p : String) (tr : List Event)
    (hp : p ∉ fs.files) (hc : ∀ e ∈ tr, ¬ createsFile e p) :
    p ∉ (applyEvents fs tr).files := by
  induction tr generalizing fs with
  | nil => exact hp
  | cons e tr ih =>
      exact ih (applyEvent fs e)
        (not_mem_applyEvent fs p e hp (hc e (List.mem_cons_self e tr)))
        (fun e' he' => hc e' (List.mem_cons_of_mem e he'))

/-- Prefix form of the previous lemma. -/
theorem not_mem_applyEvents_take (fs : FS) (p : String) (tr : List Event)
    (hp : p ∉ fs.files) (hc : ∀ e ∈ tr, ¬ createsFile e p) (n : Nat) :
    p ∉ (applyEvents fs (tr.take n)).files :=
  not_mem_applyEvents fs p (tr.take n) hp
    (fun e he => hc e (List.take_subset n tr he))

/-! ## Download counting -/

theorem countDownloads_append (t1 t2 : List Event) :
    countDownloads (t1 ++ t2) = countDownloads t1 + countDownloads t2 := by
  simp [countDownloads, List.filter_append]

theorem countDownloads_pos (tr : List Event) (c : List String)
    (hc : isDownloadCmd c = true) (hm : Event.runCmdE c ∈ tr) :
    1 ≤ countDownloads tr := by
  have hmem : Event.runCmdE c ∈ tr.filter (fun e =>
      match e with
      | .runCmdE c => isDownloadCmd c
      | _ => false) := List.mem_filter.2 ⟨hm, by simpa using hc⟩
  have : tr.filter (fun e =>
      match e with
      | .runCmdE c => isDownloadCmd c
      | _ => false) ≠ [] := List.ne_nil_of_mem hmem
  simpa [countDownloads] using List.length_pos.2 this

/-- Trace shape of a download attempt: the download invocation followed
only by the staging write, staging moves or cleanup, and pip
invocations. -/
theorem downloadAttempt_trace (dc : List String) (tmp hf inst : String) (nr : Bool)
    (pkg mn : String) (s2 : St) :
    ∃ t, (downloadAttempt dc tmp hf inst nr pkg mn s2).trace =
        s2.trace ++ Event.runCmdE dc :: t ∧
      (∀ q, Event.writeFileE q ∈ t → q = tmp) ∧
      (∀ c, Event.runCmdE c ∈ t → c = pipInstallCmd inst ∨ c = pipShowCmd pkg) := by
  unfold downloadAttempt
  rcases hrc : run_command dc false (some tmp) s2 with ⟨o, s3⟩
  have hs3 : (run_command dc false (some tmp) s2).2 = s3 := by rw [hrc]
  obtain ⟨t0, ht0, hw0⟩ := run_command_trace dc false (some tmp) s2
  rw [hs3] at ht0
  have hw0' : ∀ q, Event.writeFileE q ∈ t0 → q = tmp := by
    intro q hq
    obtain ⟨q', hq', he⟩ := hw0 _ hq
    injection he with he
    injection hq' with hq'
    rw [hq', ← he]
  have hc0 : ∀ c, Event.runCmdE c ∈ t0 → False := by
    intro c hc
    obtain ⟨q', he, _⟩ := hw0 _ hc
    exact Event.noConfusion he
  cases o with
  | ok so =>
      simp only [hrc]
      split
      · -- staging file present: move it, then rename or not
        cases nr with
        | true =>
            simp only [if_true, St.out_fs, St.doEvent_fs, fileExists_move_dst]
            obtain ⟨t1, ht1, hAll1⟩ := installAndReport_trace inst pkg mn
              (((s3.doEvent (.moveFileE tmp hf)).out "Download complete.").doEvent
                (.moveFileE hf inst))
            refine ⟨t0 ++ [Event.moveFileE tmp hf, Event.moveFileE hf inst] ++
              Event.runCmdE (pipInstallCmd inst) :: t1, ?_, ?_, ?_⟩
            · rw [ht1]
              simp [ht0]
            · intro q hq
              simp only [List.mem_append, List.mem_cons] at hq
              rcases hq with (h | h | h | h) | h | h
              · exact hw0' q h
              · exact Event.noConfusion h
              · exact Event.noConfusion h
              · simp at h
              · exact Event.noConfusion h
              · exact absurd (hAll1 _ h) (by simp)
            · intro c hc
              simp only [List.mem_append, List.mem_cons] at hc
              rcases hc with (h | h | h | h) | h | h
              · exact absurd h (fun hh => hc0 c hh)
              · exact Event.noConfusion h
              · exact Event.noConfusion h
              · simp at h
              · injection h with h
                exact Or.inl h
              · have := hAll1 _ h
                injection this with this
                exact Or.inr this
        | false =>
            simp only [if_false, Bool.false_eq_true]
            obtain ⟨t1, ht1, hAll1⟩ := installAndReport_trace inst pkg mn
              ((s3.doEvent (.moveFileE tmp hf)).out "Download complete.")
            refine ⟨t0 ++ [Event.moveFileE tmp hf] ++
              Event.runCmdE (pipInstallCmd inst) :: t1, ?_, ?_, ?_⟩
            · rw [ht1]
              simp [ht0]
            · intro q hq
              simp only [List.mem_append, List.mem_cons] at hq
              rcases hq with (h | h | h) | h | h
              · exact hw0' q h
              · exact Event.noConfusion h
              · simp at h
              · exact Event.noConfusion h
              · exact absurd (hAll1 _ h) (by simp)
            · intro c hc
              simp only [List.mem_append, List.mem_cons] at hc
              rcases hc with (h | h | h) | h | h
              · exact absurd h (fun hh => hc0 c hh)
              · exact Event.noConfusion h
              · simp at h
              · injection h with h
                exact Or.inl h
              · have := hAll1 _ h
                injection this with this
                exact Or.inr this
      · -- staging file missing after an apparently successful download
        next hmiss =>
          simp only [St.err_fs, hmiss, Bool.false_eq_true, if_false]
          refine ⟨t0, by simp [finish, ht0], hw0', fun c hc => absurd hc (fun hh => hc0 c hh)⟩
  | procExit c =>
      simp only [hrc]
      exact ⟨t0, by simp [finish, ht0], hw0', fun c hc => absurd hc (fun hh => hc0 c hh)⟩
  | kbInterrupt =>
      simp only [hrc]
      split
      · refine ⟨t0 ++ [Event.removeFileE tmp], by simp [finish, ht0], ?_, ?_⟩
        · intro q hq
          simp only [List.mem_append, List.mem_cons] at hq
          rcases hq with h | h | h
          · exact hw0' q h
          · exact Event.noConfusion h
          · simp at h
        · intro c hc
          simp only [List.mem_append, List.mem_cons] at hc
          rcases hc with h | h | h
          · exact absurd h (fun hh => hc0 c hh)
          · exact Event.noConfusion h
          · simp at h
      · exact ⟨t0, by simp [finish, ht0], hw0', fun c hc => absurd hc (fun hh => hc0 c hh)⟩

/-- Atomicity decomposition of a download attempt: the trace splits into
a part that never creates the canonical cache name, followed by a part
that is nonempty only when the download subprocess ran and exited 0 and
only after its invocation. -/
theorem downloadAttempt_staging (dc : List String) (tmp hf inst : String) (nr : Bool)
    (pkg mn : String) (s2 : St) (htmp : tmp ≠ hf) :
    ∃ t1 t2, (downloadAttempt dc tmp hf inst nr pkg mn s2).trace = s2.trace ++ t1 ++ t2 ∧
      (∀ e ∈ t1, ¬ createsFile e hf) ∧
      (t2 = [] ∨ ((s2.specs.headD defaultSpec).succeeds = true ∧
        Event.runCmdE dc ∈ t1)) := by
  unfold downloadAttempt
  rcases hrc : run_command dc false (some tmp) s2 with ⟨o, s3⟩
  have hs3 : (run_command dc false (some tmp) s2).2 = s3 := by rw [hrc]
  obtain ⟨t0, ht0, hw0⟩ := run_command_trace dc false (some tmp) s2
  rw [hs3] at ht0
  have ht1free : ∀ e ∈ Event.runCmdE dc :: t0, ¬ createsFile e hf := by
    intro e he
    rcases List.mem_cons.1 he with h | h
    · subst h
      rintro (h | ⟨src, h⟩) <;> exact Event.noConfusion h
    · obtain ⟨q, hq, he2⟩ := hw0 _ h
      injection he2 with he2
      subst hq
      rintro (hx | ⟨src, hx⟩)
      · injection hx with hx
        exact htmp (he2.trans hx)
      · exact Event.noConfusion hx
  cases o with
  | ok so =>
      have hsucc : (s2.specs.headD defaultSpec).succeeds = true :=
        run_command_ok_succeeds dc false (some tmp) s2 so (by rw [hrc])
      simp only [hrc]
      split
      · cases nr with
        | true =>
            simp only [if_true, St.out_fs, St.doEvent_fs, fileExists_move_dst]
            obtain ⟨t1, ht1, _⟩ := installAndReport_trace inst pkg mn
              (((s3.doEvent (.moveFileE tmp hf)).out "Download complete.").doEvent
                (.moveFileE hf inst))
            refine ⟨Event.runCmdE dc :: t0,
              [Event.moveFileE tmp hf, Event.moveFileE hf inst] ++
                Event.runCmdE (pipInstallCmd inst) :: t1, ?_, ht1free,
              Or.inr ⟨hsucc, List.mem_cons_self _ _⟩⟩
            rw [ht1]
            simp [ht0]
        | false =>
            simp only [if_false, Bool.false_eq_true]
            obtain ⟨t1, ht1, _⟩ := installAndReport_trace inst pkg mn
              ((s3.doEvent (.moveFileE tmp hf)).out "Download complete.")
            refine ⟨Event.runCmdE dc :: t0,
              [Event.moveFileE tmp hf] ++ Event.runCmdE (pipInstallCmd inst) :: t1, ?_,
              ht1free, Or.inr ⟨hsucc, List.mem_cons_self _ _⟩⟩
            rw [ht1]
            simp [ht0]
      · next hmiss =>
          simp only [St.err_fs, hmiss, Bool.false_eq_true, if_false]
          exact ⟨Event.runCmdE dc :: t0, [], by simp [finish, ht0], ht1free, Or.inl rfl⟩
  | procExit c =>
      simp only [hrc]
      exact ⟨Event.runCmdE dc :: t0, [], by simp [finish, ht0], ht1free, Or.inl rfl⟩
  | kbInterrupt =>
      simp only [hrc]
      split
      · refine ⟨Event.runCmdE dc :: t0 ++ [Event.removeFileE tmp], [],
          by simp [finish, ht0], ?_, Or.inl rfl⟩
        intro e he
        rcases List.mem_append.1 he with h | h
        · exact ht1free e h
        · rcases List.mem_cons.1 h with h | h
          · subst h
            rintro (hx | ⟨src, hx⟩) <;> exact Event.noConfusion hx
          · cases h
      · exact ⟨Event.runCmdE dc :: t0, [], by simp [finish, ht0], ht1free, Or.inl rfl⟩

/-- If a download attempt terminates with exit status 0, the installable
path exists on disk afterwards. -/
theorem downloadAttempt_exit_zero_fs (dc : List String) (tmp hf inst : String) (nr : Bool)
    (pkg mn : String) (s2 : St) (hnr : nr = false → hf = inst) :
    (downloadAttempt dc tmp hf inst nr pkg mn s2).exitCode = 0 →
    inst ∈ (downloadAttempt dc tmp hf inst nr pkg mn s2).fs.files := by
  unfold downloadAttempt
  rcases hrc : run_command dc false (some tmp) s2 with ⟨o, s3⟩
  cases o with
  | ok so =>
      simp only [hrc]
      split
      · cases nr with
        | true =>
            simp only [if_true, St.out_fs, St.doEvent_fs, fileExists_move_dst]
            intro _
            rw [installAndReport_fs]
            simp [applyEvent]
        | false =>
            simp only [if_false, Bool.false_eq_true]
            intro _
            rw [installAndReport_fs]
            simp only [St.out_fs, St.doEvent_fs]
            rw [← hnr rfl]
            simp [applyEvent]
      · next hmiss =>
          simp only [St.err_fs, hmiss, Bool.false_eq_true, if_false]
          intro h
          simp [finish] at h
  | procExit c =>
      have hc1 : c = 1 :=
        run_command_procExit_one dc false (some tmp) s2 c (by rw [hrc])
      simp only [hrc]
      intro h
      simp [finish, hc1] at h
  | kbInterrupt =>
      simp only [hrc]
      split <;> intro h <;> simp [finish] at h

/-- The unsupported-platform branch of the download phase. -/
theorem downloadPhase_unsupported (pf mn pkg cd : String) (s1 : St)
    (h : get_download_command pf (urlOf mn)
      (cd ++ "/" ++ (namingRule mn).1 ++ ".part") = none) :
    downloadPhase pf mn pkg cd s1 =
      finish 1 ((s1.out "Cached model not found. Starting download...").err
        ("Unsupported operating system: " ++ pf)) := by
  unfold downloadPhase
  simp only [h]

/-- The supported-platform branch of the download phase. -/
theorem downloadPhase_attempt (pf mn pkg cd : String) (s1 : St) (dcmd : List String)
    (h : get_download_command pf (urlOf mn)
      (cd ++ "/" ++ (namingRule mn).1 ++ ".part") = some dcmd) :
    downloadPhase pf mn pkg cd s1 =
      downloadAttempt dcmd (cd ++ "/" ++ (namingRule mn).1 ++ ".part")
        (cd ++ "/" ++ (namingRule mn).1) (cd ++ "/" ++ (namingRule mn).2.1)
        (namingRule mn).2.2 pkg mn
        (s1.out "Cached model not found. Starting download...") := by
  unfold downloadPhase
  simp only [h]

theorem countDownloads_eq_zero (tr : List Event)
    (h : ∀ c, Event.runCmdE c ∈ tr → isDownloadCmd c = false) :
    countDownloads tr = 0 := by
  simp only [countDownloads, List.length_eq_zero]
  rw [List.filter_eq_nil_iff]
  intro e he
  cases e with
  | mkdirE p => simp
  | runCmdE c => simp [h c he]
  | writeFileE p => simp
  | removeFileE p => simp
  | moveFileE a b => simp

@[simp] theorem fileExists_write_self (fs : FS) (p : String) :
    (applyEvent fs (.writeFileE p)).fileExists p = true := by
  simp [applyEvent, FS.fileExists]

/-- Install failure after a successful download: the staging file was
written and promoted, the installable artifact exists, and then the
failing installer terminates the process with full diagnostics while
the artifact is left in place. -/
theorem downloadAttempt_install_fail (dc : List String) (tmp hf inst : String) (nr : Bool)
    (pkg mn : String) (s2 : St) (r1 r : CmdResult)
    (hb1 : (s2.specs.headD defaultSpec).behavior = .runs r1) (h1 : r1.exitCode = 0)
    (hw : (s2.specs.headD defaultSpec).wrote = true)
    (hb2 : (s2.specs.tail.headD defaultSpec).behavior = .runs r) (h0 : r.exitCode ≠ 0)
    (hnr : nr = false → hf = inst) :
    (downloadAttempt dc tmp hf inst nr pkg mn s2).exitCode = 1 ∧
    ("Error: Command failed with return code " ++ toString r.exitCode)
      ∈ (downloadAttempt dc tmp hf inst nr pkg mn s2).errs ∧
    ("Command: " ++ " ".intercalate (pipInstallCmd inst))
      ∈ (downloadAttempt dc tmp hf inst nr pkg mn s2).errs ∧
    (r.stdout ≠ "" → ("STDOUT: " ++ r.stdout)
      ∈ (downloadAttempt dc tmp hf inst nr pkg mn s2).errs) ∧
    (r.stderr ≠ "" → ("STDERR: " ++ r.stderr)
      ∈ (downloadAttempt dc tmp hf inst nr pkg mn s2).errs) ∧
    inst ∈ (downloadAttempt dc tmp hf inst nr pkg mn s2).fs.files := by
  unfold downloadAttempt
  rcases hrc : run_command dc false (some tmp) s2 with ⟨o, s3⟩
  have ho : (run_command dc false (some tmp) s2).1 = o := by rw [hrc]
  rw [run_command_outcome, hb1] at ho
  simp only [h1, beq_self_eq_true, if_true] at ho
  have hs3 : (run_command dc false (some tmp) s2).2 = s3 := by rw [hrc]
  have hfs3 : s3.fs = applyEvent s2.fs (.writeFileE tmp) := by
    rw [← hs3, run_command_some_fs, hw]
    simp
  have hsp3 : s3.specs = s2.specs.tail := by
    rw [← hs3, run_command_specs]
  subst ho
  simp only [hrc]
  rw [if_pos (by rw [hfs3]; simp)]
  cases nr with
  | true =>
      simp only [if_true, St.out_fs, St.doEvent_fs, fileExists_move_dst]
      obtain ⟨e1, e2, e3, e4, e5, e6⟩ := installAndReport_fail inst pkg mn
        (((s3.doEvent (.moveFileE tmp hf)).out "Download complete.").doEvent
          (.moveFileE hf inst)) r (by simpa [hsp3] using hb2) h0
      exact ⟨e1, e2, e3, e4, e5, by rw [e6]; simp [applyEvent]⟩
  | false =>
      simp only [if_false, Bool.false_eq_true]
      obtain ⟨e1, e2, e3, e4, e5, e6⟩ := installAndReport_fail inst pkg mn
        ((s3.doEvent (.moveFileE tmp hf)).out "Download complete.") r
        (by simpa [hsp3] using hb2) h0
      refine ⟨e1, e2, e3, e4, e5, ?_⟩
      rw [e6]
      simp only [St.out_fs, St.doEvent_fs]
      rw [← hnr rfl]
      simp [applyEvent]

/-! ## Claim theorems -/

/-- C3: for the identifier grc_proiel_trf the remote and installable
filenames are identical and no rename step occurs; for every other
identifier X, the remote filename is X-any-py3-none-any.whl, the
installable filename is X-0.0.0-py3-none-any.whl, and a rename step is
required after download. -/
theorem C3_naming_rule :
    namingRule "grc_proiel_trf" =
      ("grc_proiel_trf-3.7.5-py3-none-any.whl",
        "grc_proiel_trf-3.7.5-py3-none-any.whl", false) ∧
    ∀ X : String, X ≠ "grc_proiel_trf" →
      namingRule X =
        (X ++ "-any-py3-none-any.whl", X ++ "-0.0.0-py3-none-any.whl", true) := by
  refine ⟨rfl, ?_⟩
  intro X hX
  simp [namingRule, hX]

theorem C3_naming_rule_witness :
    namingRule "foo_bar" =
      ("foo_bar-any-py3-none-any.whl", "foo_bar-0.0.0-py3-none-any.whl", true) :=
  C3_naming_rule.2 "foo_bar" (by decide)

/-- C8: an invocation with no positional argument writes a usage line to
stderr and exits 1 with no side effects: no event happens and the
filesystem is returned unchanged. -/
theorem C8_usage_error (w : World) (fs0 : FS) (prog : String)
    (ha : w.argv = [prog]) :
    (runMain w fs0).exitCode = 1 ∧
    (runMain w fs0).fs = fs0 ∧
    (runMain w fs0).trace = [] ∧
    (runMain w fs0).errs = ["Usage: python " ++ prog ++ " <model_name>"] := by
  rcases w with ⟨pf, av, home, sps⟩
  simp only at ha
  subst ha
  unfold runMain
  simp [finish]

theorem C8_usage_error_witness :
    (runMain wNoArg fs0Empty).exitCode = 1 ∧
    (runMain wNoArg fs0Empty).fs = fs0Empty ∧
    (runMain wNoArg fs0Empty).trace = [] ∧
    (runMain wNoArg fs0Empty).errs = ["Usage: python install_model.py <model_name>"] :=
  C8_usage_error wNoArg fs0Empty "install_model.py" rfl

/-- C1 (code-bug exhibit): the download command exits non-zero (curl 22)
after writing partial bytes to the staging path.  The process exits 1
and neither the canonical cache name nor the installable cache name is
created, but the staging .part file is NOT removed: run_command calls
sys.exit(1), raising SystemExit, which the "except Exception" cleanup
handler in main does not catch. -/
theorem C1_transport_error_staging_not_removed :
    (runMain wFailedDownload fs0Empty).exitCode = 1 ∧
    "/h/.cache/grecy_models/foo_bar-any-py3-none-any.whl.part"
      ∈ (runMain wFailedDownload fs0Empty).fs.files ∧
    "/h/.cache/grecy_models/foo_bar-any-py3-none-any.whl"
      ∉ (runMain wFailedDownload fs0Empty).fs.files ∧
    "/h/.cache/grecy_models/foo_bar-0.0.0-py3-none-any.whl"
      ∉ (runMain wFailedDownload fs0Empty).fs.files ∧
    Event.removeFileE "/h/.cache/grecy_models/foo_bar-any-py3-none-any.whl.part"
      ∉ (runMain wFailedDownload fs0Empty).trace := by
  decide

/-- C5 (code-bug exhibit): after a successful install, pip show exits 1
(package metadata not found) inside the Install Inspector; run_command
calls sys.exit(1), raising SystemExit, which the "except Exception"
handler of get_install_info does not catch, so the whole process exits 1
even though the install step succeeded. -/
theorem C5_pip_show_failure_exits_nonzero :
    (runMain wShowFail fsHitFooBar).exitCode = 1 ∧
    Event.runCmdE (pipInstallCmd "/h/.cache/grecy_models/foo_bar-0.0.0-py3-none-any.whl")
      ∈ (runMain wShowFail fsHitFooBar).trace ∧
    Event.runCmdE (pipShowCmd "foo-bar") ∈ (runMain wShowFail fsHitFooBar).trace := by
  decide

/-- Supporting fact for the Install Inspector: when pip show succeeds
but its output has no Location line, the failure is informational only
and the run still exits 0. -/
theorem inspector_no_location_informational :
    (runMain wNoLocation fsHitFooBar).exitCode = 0 := by
  decide

/-- Supporting fact for the Install Inspector: when the model directory
is missing, the failure is informational only and the run still exits
0. -/
theorem inspector_missing_directory_informational :
    (runMain wDirMissing fsHitFooBar).exitCode = 0 := by
  decide

/-- C6 counterexample: on the unsupported platform Amiga (cache miss)
the run exits 1, but only after performing a filesystem operation: the
cache-directory creation is in the trace and the directory exists
afterwards, refuting "exits before performing any filesystem
operation". -/
theorem C6_unsupported_platform_counterexample :
    (runMain wAmiga fs0Empty).exitCode = 1 ∧
    (runMain wAmiga fs0Empty).trace = [Event.mkdirE "/h/.cache/grecy_models"] ∧
    (runMain wAmiga fs0Empty).fs.dirs = ["/h/.cache/grecy_models"] ∧
    (runMain wAmiga fs0Empty).fs ≠ fs0Empty := by
  decide

/-- C9: the package name used for the install-report metadata query is
the identifier with every underscore replaced by a hyphen: the pip show
invocation recorded in the trace uses replaceUnderscore of the model,
which maps each underscore character to a hyphen. -/
theorem C9_package_name (w : World) (fs0 : FS) (prog model : String) (rest : List String)
    (ha : w.argv = prog :: model :: rest)
    (hh : fs0.fileExists (installablePathOf w.home model) = true)
    (r : CmdResult) (hb : (firstSpecOf w).behavior = .runs r) (h0 : r.exitCode = 0) :
    Event.runCmdE (pipShowCmd (replaceUnderscore model)) ∈ (runMain w fs0).trace ∧
    (replaceUnderscore model).data =
      model.data.map (fun c => if c = '_' then '-' else c) ∧
    replaceUnderscore "grc_proiel_trf" = "grc-proiel-trf" := by
  obtain ⟨s, heq, hfs, htr, herr, hsp⟩ := runMain_hit w fs0 prog model rest ha hh
  rw [heq]
  refine ⟨?_, rfl, rfl⟩
  rw [installAndReport_ok_trace (installablePathOf w.home model) (replaceUnderscore model)
    model s r (by rw [hsp]; exact hb) h0]
  simp

theorem C9_package_name_witness :
    Event.runCmdE (pipShowCmd (replaceUnderscore "foo_bar"))
      ∈ (runMain wSecondRun fsHitFooBar).trace :=
  (C9_package_name wSecondRun fsHitFooBar "install_model.py" "foo_bar" [] rfl (by decide)
    { exitCode := 0, stdout := "", stderr := "" } rfl rfl).1

/-- C7: whenever the installer subprocess exits non-zero — on a
cache-hit run, or on a cache-miss run after a successful download — the
process exits 1, the stderr diagnostics include the exit code, the full
install command line and the captured streams, and the artifact at the
installable path is on disk afterwards (on a hit, with the filesystem
unchanged). -/
theorem C7_install_failure (w : World) (fs0 : FS) (prog model : String) (rest : List String)
    (ha : w.argv = prog :: model :: rest) (r : CmdResult) (h0 : r.exitCode ≠ 0) :
    (fs0.fileExists (installablePathOf w.home model) = true →
      (firstSpecOf w).behavior = .runs r →
      (runMain w fs0).exitCode = 1 ∧
      ("Error: Command failed with return code " ++ toString r.exitCode)
        ∈ (runMain w fs0).errs ∧
      ("Command: " ++ " ".intercalate (pipInstallCmd (installablePathOf w.home model)))
        ∈ (runMain w fs0).errs ∧
      (r.stdout ≠ "" → ("STDOUT: " ++ r.stdout) ∈ (runMain w fs0).errs) ∧
      (r.stderr ≠ "" → ("STDERR: " ++ r.stderr) ∈ (runMain w fs0).errs) ∧
      (runMain w fs0).fs.files = fs0.files ∧
      (runMain w fs0).fs.fileExists (installablePathOf w.home model) = true) ∧
    (fs0.fileExists (installablePathOf w.home model) = false →
      ∀ (dcmd : List String) (r1 : CmdResult),
      get_download_command w.platform (urlOf model)
        (cacheDirOf w.home ++ "/" ++ (namingRule model).1 ++ ".part") = some dcmd →
      (firstSpecOf w).behavior = .runs r1 → r1.exitCode = 0 →
      (firstSpecOf w).wrote = true →
      (w.specs.tail.headD defaultSpec).behavior = .runs r →
      (runMain w fs0).exitCode = 1 ∧
      ("Error: Command failed with return code " ++ toString r.exitCode)
        ∈ (runMain w fs0).errs ∧
      ("Command: " ++ " ".intercalate (pipInstallCmd (installablePathOf w.home model)))
        ∈ (runMain w fs0).errs ∧
      (r.stdout ≠ "" → ("STDOUT: " ++ r.stdout) ∈ (runMain w fs0).errs) ∧
      (r.stderr ≠ "" → ("STDERR: " ++ r.stderr) ∈ (runMain w fs0).errs) ∧
      (runMain w fs0).fs.fileExists (installablePathOf w.home model) = true) := by
  constructor
  · intro hh hb
    obtain ⟨s, heq, hfs, htr, herr, hsp⟩ := runMain_hit w fs0 prog model rest ha hh
    rw [heq]
    obtain ⟨h1, h2, h3, h4, h5, h6⟩ := installAndReport_fail (installablePathOf w.home model)
      (replaceUnderscore model) model s r (by rw [hsp]; exact hb) h0
    refine ⟨h1, h2, h3, h4, h5, ?_, ?_⟩
    · rw [h6, hfs]
      rfl
    · rw [h6, hfs]
      simpa using hh
  · intro hmiss dcmd r1 hgd hb1 h1 hw hb2
    obtain ⟨s, heq, hfs, htr, herr, hsp⟩ := runMain_miss w fs0 prog model rest ha hmiss
    rw [heq, downloadPhase_attempt w.platform model (replaceUnderscore model)
      (cacheDirOf w.home) s dcmd hgd]
    have hnr : (namingRule model).2.2 = false →
        cacheDirOf w.home ++ "/" ++ (namingRule model).1 =
          cacheDirOf w.home ++ "/" ++ (namingRule model).2.1 := by
      intro h
      rw [namingRule_no_rename model h]
    obtain ⟨e1, e2, e3, e4, e5, e6⟩ := downloadAttempt_install_fail dcmd
      (cacheDirOf w.home ++ "/" ++ (namingRule model).1 ++ ".part")
      (cacheDirOf w.home ++ "/" ++ (namingRule model).1)
      (cacheDirOf w.home ++ "/" ++ (namingRule model).2.1)
      (namingRule model).2.2 (replaceUnderscore model) model
      (s.out "Cached model not found. Starting download...") r1 r
      (by simp only [St.out_specs, hsp]; exact hb1) h1
      (by simp only [St.out_specs, hsp]; exact hw)
      (by simp only [St.out_specs, hsp]; exact hb2) h0 hnr
    exact ⟨e1, e2, e3, e4, e5, (fileExists_iff_mem _ _).2 e6⟩

theorem C7_install_failure_witness :
    (runMain wInstallFail fsHitFooBar).exitCode = 1 ∧
    (runMain wInstallFail fsHitFooBar).fs.files = fsHitFooBar.files :=
  ⟨((C7_install_failure wInstallFail fsHitFooBar "install_model.py" "foo_bar" [] rfl
      { exitCode := 2, stdout := "Processing wheel", stderr := "ERROR: not a valid wheel" }
      (by decide)).1 (by decide) rfl).1,
    ((C7_install_failure wInstallFail fsHitFooBar "install_model.py" "foo_bar" [] rfl
      { exitCode := 2, stdout := "Processing wheel", stderr := "ERROR: not a valid wheel" }
      (by decide)).1 (by decide) rfl).2.2.2.2.2.1⟩

/-- C6 amended: on a platform outside the two supported families, a
cache-miss run exits 1 with no subprocess invoked (hence no network
activity) and no filesystem change beyond creating the cache directory;
a cache-hit run performs no platform check at all and proceeds directly
to the install step with no download invocation. -/
theorem C6_unsupported_platform_amended (w : World) (fs0 : FS) (prog model : String)
    (rest : List String) (ha : w.argv = prog :: model :: rest)
    (hp1 : w.platform ≠ "Linux") (hp2 : w.platform ≠ "Darwin")
    (hp3 : w.platform ≠ "Windows") :
    (fs0.fileExists (installablePathOf w.home model) = false →
      (runMain w fs0).exitCode = 1 ∧
      (runMain w fs0).trace = [Event.mkdirE (cacheDirOf w.home)] ∧
      (runMain w fs0).fs.files = fs0.files) ∧
    (fs0.fileExists (installablePathOf w.home model) = true →
      countDownloads (runMain w fs0).trace = 0 ∧
      ∃ t, (runMain w fs0).trace =
        Event.mkdirE (cacheDirOf w.home) ::
          Event.runCmdE (pipInstallCmd (installablePathOf w.home model)) :: t) := by
  constructor
  · intro hmiss
    obtain ⟨s, heq, hfs, htr, herr, hsp⟩ := runMain_miss w fs0 prog model rest ha hmiss
    rw [heq, downloadPhase_unsupported _ _ _ _ _
      ((get_download_command_none_iff _ _ _).2 ⟨hp1, hp2, hp3⟩)]
    refine ⟨rfl, ?_, ?_⟩
    · simp [finish, htr]
    · simp [finish, hfs]
  · intro hhit
    obtain ⟨s, heq, hfs, htr, herr, hsp⟩ := runMain_hit w fs0 prog model rest ha hhit
    rw [heq]
    obtain ⟨t, ht, hAll⟩ := installAndReport_trace (installablePathOf w.home model)
      (replaceUnderscore model) model s
    refine ⟨?_, t, by rw [ht, htr]; rfl⟩
    rw [ht, htr]
    apply countDownloads_eq_zero
    intro c hc
    simp only [List.mem_append, List.mem_cons, List.not_mem_nil, or_false] at hc
    rcases hc with h | h | h
    · exact absurd h (by simp)
    · injection h with h
      subst h
      simp
    · have h2 := hAll _ h
      injection h2 with h2
      subst h2
      simp

theorem C6_unsupported_platform_amended_witness :
    (runMain wAmiga fs0Empty).exitCode = 1 ∧
    (runMain wAmiga fs0Empty).trace = [Event.mkdirE (cacheDirOf "/h")] ∧
    (runMain wAmiga fs0Empty).fs.files = fs0Empty.files :=
  (C6_unsupported_platform_amended wAmiga fs0Empty "install_model.py" "foo_bar" [] rfl
    (by decide) (by decide) (by decide)).1 (by decide)

/-- C10: for grc_proiel_trf both filenames are exactly the pinned
grc_proiel_trf-3.7.5-py3-none-any.whl (version token 3.7.5, not a
placeholder), the cache lookup is for exactly that name, and when that
exact path is absent (whatever else the cache holds) a
supported-platform run still invokes the download subprocess. -/
theorem C10_pinned_special_case :
    (namingRule "grc_proiel_trf").1 = "grc_proiel_trf-3.7.5-py3-none-any.whl" ∧
    (namingRule "grc_proiel_trf").2.1 = "grc_proiel_trf-3.7.5-py3-none-any.whl" ∧
    (∀ home : String, installablePathOf home "grc_proiel_trf" =
      cacheDirOf home ++ "/" ++ "grc_proiel_trf-3.7.5-py3-none-any.whl") ∧
    ∀ (w : World) (fs0 : FS) (prog : String) (rest : List String),
      w.argv = prog :: "grc_proiel_trf" :: rest →
      w.platform = "Linux" →
      fs0.fileExists
        (cacheDirOf w.home ++ "/" ++ "grc_proiel_trf-3.7.5-py3-none-any.whl") = false →
      ∃ c, Event.runCmdE c ∈ (runMain w fs0).trace ∧ isDownloadCmd c = true := by
  refine ⟨rfl, rfl, fun home => rfl, ?_⟩
  intro w fs0 prog rest ha hp hmiss
  have hmiss2 : fs0.fileExists (installablePathOf w.home "grc_proiel_trf") = false := hmiss
  obtain ⟨s, heq, hfs, htr, herr, hsp⟩ := runMain_miss w fs0 prog "grc_proiel_trf" rest ha hmiss2
  rw [heq, hp]
  have hgd : get_download_command "Linux" (urlOf "grc_proiel_trf")
      (cacheDirOf w.home ++ "/" ++ (namingRule "grc_proiel_trf").1 ++ ".part") =
      some ["curl", "-f", "-sL", "-o",
        cacheDirOf w.home ++ "/" ++ (namingRule "grc_proiel_trf").1 ++ ".part",
        urlOf "grc_proiel_trf"] := by
    simp [get_download_command]
  rw [downloadPhase_attempt "Linux" "grc_proiel_trf" (replaceUnderscore "grc_proiel_trf")
    (cacheDirOf w.home) s _ hgd]
  obtain ⟨t, ht, _, _⟩ := downloadAttempt_trace
    ["curl", "-f", "-sL", "-o",
      cacheDirOf w.home ++ "/" ++ (namingRule "grc_proiel_trf").1 ++ ".part",
      urlOf "grc_proiel_trf"]
    (cacheDirOf w.home ++ "/" ++ (namingRule "grc_proiel_trf").1 ++ ".part")
    (cacheDirOf w.home ++ "/" ++ (namingRule "grc_proiel_trf").1)
    (cacheDirOf w.home ++ "/" ++ (namingRule "grc_proiel_trf").2.1)
    (namingRule "grc_proiel_trf").2.2
    (replaceUnderscore "grc_proiel_trf") "grc_proiel_trf"
    (s.out "Cached model not found. Starting download...")
  refine ⟨_, ?_, get_download_command_isDownload _ _ _ _ hgd⟩
  rw [ht]
  simp

theorem C10_pinned_special_case_witness :
    ∃ c, Event.runCmdE c ∈ (runMain wStaleCache fsWrongName).trace ∧
      isDownloadCmd c = true :=
  C10_pinned_special_case.2.2.2 wStaleCache fsWrongName "install_model.py" [] rfl rfl
    (by decide)

/-- A cache-hit run proceeds straight to the install step and invokes no
download subprocess. -/
theorem runMain_hit_no_download (w : World) (fs0 : FS) (prog model : String)
    (rest : List String) (ha : w.argv = prog :: model :: rest)
    (hhit : fs0.fileExists (installablePathOf w.home model) = true) :
    countDownloads (runMain w fs0).trace = 0 ∧
    ∃ t, (runMain w fs0).trace =
      Event.mkdirE (cacheDirOf w.home) ::
        Event.runCmdE (pipInstallCmd (installablePathOf w.home model)) :: t := by
  obtain ⟨s, heq, hfs, htr, herr, hsp⟩ := runMain_hit w fs0 prog model rest ha hhit
  rw [heq]
  obtain ⟨t, ht, hAll⟩ := installAndReport_trace (installablePathOf w.home model)
    (replaceUnderscore model) model s
  refine ⟨?_, t, by rw [ht, htr]; rfl⟩
  rw [ht, htr]
  apply countDownloads_eq_zero
  intro c hc
  simp only [List.mem_append, List.mem_cons, List.not_mem_nil, or_false] at hc
  rcases hc with h | h | h
  · exact absurd h (by simp)
  · injection h with h
    subst h
    simp
  · have h2 := hAll _ h
    injection h2 with h2
    subst h2
    simp

/-- C4: a run whose installable path is already cached invokes no
download subprocess at all and proceeds directly to the install step;
consequently, starting from a fresh cache, a successful run performs
exactly one download and an immediately following run for the same
identifier performs none. -/
theorem C4_cache_hit_idempotence (w : World) (fs0 : FS) (prog model : String)
    (rest : List String) (ha : w.argv = prog :: model :: rest) :
    (fs0.fileExists (installablePathOf w.home model) = true →
      countDownloads (runMain w fs0).trace = 0 ∧
      ∃ t, (runMain w fs0).trace =
        Event.mkdirE (cacheDirOf w.home) ::
          Event.runCmdE (pipInstallCmd (installablePathOf w.home model)) :: t) ∧
    (∀ (w2 : World) (prog2 : String) (rest2 : List String),
      w2.argv = prog2 :: model :: rest2 → w2.home = w.home →
      fs0.fileExists (installablePathOf w.home model) = false →
      (runMain w fs0).exitCode = 0 →
      countDownloads (runMain w fs0).trace = 1 ∧
      countDownloads (runMain w2 (runMain w fs0).fs).trace = 0) := by
  constructor
  · exact fun hhit => runMain_hit_no_download w fs0 prog model rest ha hhit
  · intro w2 prog2 rest2 ha2 hhome hmiss h0
    obtain ⟨s, heq, hfs, htr, herr, hsp⟩ := runMain_miss w fs0 prog model rest ha hmiss
    rcases hgd : get_download_command w.platform (urlOf model)
        (cacheDirOf w.home ++ "/" ++ (namingRule model).1 ++ ".part") with _ | dcmd
    · rw [heq, downloadPhase_unsupported _ _ _ _ _ hgd] at h0
      simp [finish] at h0
    · rw [heq, downloadPhase_attempt w.platform model (replaceUnderscore model)
        (cacheDirOf w.home) s dcmd hgd] at h0 ⊢
      have hdl : isDownloadCmd dcmd = true := get_download_command_isDownload _ _ _ _ hgd
      obtain ⟨t, ht, hwr, hrc⟩ := downloadAttempt_trace dcmd
        (cacheDirOf w.home ++ "/" ++ (namingRule model).1 ++ ".part")
        (cacheDirOf w.home ++ "/" ++ (namingRule model).1)
        (cacheDirOf w.home ++ "/" ++ (namingRule model).2.1)
        (namingRule model).2.2 (replaceUnderscore model) model
        (s.out "Cached model not found. Starting download...")
      have hct : countDownloads t = 0 := by
        apply countDownloads_eq_zero
        intro c hc
        rcases hrc c hc with h | h <;> subst h <;> simp
      constructor
      · rw [ht]
        simp only [St.out_trace, htr]
        rw [show Event.runCmdE dcmd :: t = [Event.runCmdE dcmd] ++ t from rfl,
          countDownloads_append, countDownloads_append, hct]
        simp [countDownloads, hdl]
      · have hnr : (namingRule model).2.2 = false →
            cacheDirOf w.home ++ "/" ++ (namingRule model).1 =
              cacheDirOf w.home ++ "/" ++ (namingRule model).2.1 := by
          intro h
          rw [namingRule_no_rename model h]
        have hmem := downloadAttempt_exit_zero_fs dcmd
          (cacheDirOf w.home ++ "/" ++ (namingRule model).1 ++ ".part")
          (cacheDirOf w.home ++ "/" ++ (namingRule model).1)
          (cacheDirOf w.home ++ "/" ++ (namingRule model).2.1)
          (namingRule model).2.2 (replaceUnderscore model) model
          (s.out "Cached model not found. Starting download...") hnr h0
        have hhit2 : (downloadAttempt dcmd
            (cacheDirOf w.home ++ "/" ++ (namingRule model).1 ++ ".part")
            (cacheDirOf w.home ++ "/" ++ (namingRule model).1)
            (cacheDirOf w.home ++ "/" ++ (namingRule model).2.1)
            (namingRule model).2.2 (replaceUnderscore model) model
            (s.out "Cached model not found. Starting download...")).fs.fileExists
              (installablePathOf w2.home model) = true := by
          rw [hhome]
          exact (fileExists_iff_mem _ _).2 hmem
        exact (runMain_hit_no_download w2 _ prog2 model rest2 ha2 hhit2).1

theorem C4_cache_hit_idempotence_witness :
    countDownloads (runMain wAllOk fs0Empty).trace = 1 ∧
    countDownloads (runMain wSecondRun (runMain wAllOk fs0Empty).fs).trace = 0 :=
  (C4_cache_hit_idempotence wAllOk fs0Empty "install_model.py" "foo_bar" [] rfl).2
    wSecondRun "install_model.py" [] rfl rfl (by decide) (by decide)

/-- C2: on a cache-miss run the download subprocess writes exclusively
to the staging path remoteCachePath ++ ".part"; and replaying any prefix
of the run's event trace from the initial filesystem, the canonical
remoteCachePath exists only if the download subprocess was already
invoked within that prefix and its oracle entry reports success
(exit 0) — it never comes into existence before the download command
succeeds. -/
theorem C2_download_staging_atomicity (w : World) (fs0 : FS) (prog model : String)
    (rest : List String) (ha : w.argv = prog :: model :: rest)
    (hmiss : fs0.fileExists (installablePathOf w.home model) = false)
    (hhf : (cacheDirOf w.home ++ "/" ++ (namingRule model).1) ∉ fs0.files) :
    (∀ q, Event.writeFileE q ∈ (runMain w fs0).trace →
      q = cacheDirOf w.home ++ "/" ++ (namingRule model).1 ++ ".part") ∧
    ∀ n, (cacheDirOf w.home ++ "/" ++ (namingRule model).1) ∈
        (applyEvents fs0 ((runMain w fs0).trace.take n)).files →
      (firstSpecOf w).succeeds = true ∧
      1 ≤ countDownloads ((runMain w fs0).trace.take n) := by
  obtain ⟨s, heq, hfs, htr, herr, hsp⟩ := runMain_miss w fs0 prog model rest ha hmiss
  rcases hgd : get_download_command w.platform (urlOf model)
      (cacheDirOf w.home ++ "/" ++ (namingRule model).1 ++ ".part") with _ | dcmd
  · -- unsupported platform: the trace is only the mkdir event
    have hres := heq.trans (downloadPhase_unsupported w.platform model
      (replaceUnderscore model) (cacheDirOf w.home) s hgd)
    have htrace : (runMain w fs0).trace = [Event.mkdirE (cacheDirOf w.home)] := by
      rw [hres]
      simp [finish, htr]
    have hfree : ∀ e ∈ [Event.mkdirE (cacheDirOf w.home)],
        ¬ createsFile e (cacheDirOf w.home ++ "/" ++ (namingRule model).1) := by
      intro e he
      simp only [List.mem_cons, List.not_mem_nil, or_false] at he
      subst he
      rintro (h | ⟨src, h⟩) <;> exact Event.noConfusion h
    constructor
    · intro q hq
      rw [htrace] at hq
      simp at hq
    · intro n hn
      rw [htrace] at hn
      exact absurd hn (not_mem_applyEvents_take fs0 _ _ hhf hfree n)
  · -- supported platform: the run is a download attempt
    have hres := heq.trans (downloadPhase_attempt w.platform model
      (replaceUnderscore model) (cacheDirOf w.home) s dcmd hgd)
    have hdl : isDownloadCmd dcmd = true := get_download_command_isDownload _ _ _ _ hgd
    obtain ⟨t, ht, hwr, hrc⟩ := downloadAttempt_trace dcmd
      (cacheDirOf w.home ++ "/" ++ (namingRule model).1 ++ ".part")
      (cacheDirOf w.home ++ "/" ++ (namingRule model).1)
      (cacheDirOf w.home ++ "/" ++ (namingRule model).2.1)
      (namingRule model).2.2 (replaceUnderscore model) model
      (s.out "Cached model not found. Starting download...")
    obtain ⟨t1, t2, hsplit, hfree1, hd⟩ := downloadAttempt_staging dcmd
      (cacheDirOf w.home ++ "/" ++ (namingRule model).1 ++ ".part")
      (cacheDirOf w.home ++ "/" ++ (namingRule model).1)
      (cacheDirOf w.home ++ "/" ++ (namingRule model).2.1)
      (namingRule model).2.2 (replaceUnderscore model) model
      (s.out "Cached model not found. Starting download...")
      (append_part_ne _)
    simp only [St.out_trace, htr] at ht hsplit
    have hfreeA : ∀ e ∈ Event.mkdirE (cacheDirOf w.home) :: t1,
        ¬ createsFile e (cacheDirOf w.home ++ "/" ++ (namingRule model).1) := by
      intro e he
      rcases List.mem_cons.1 he with h | h
      · subst h
        rintro (h | ⟨src, h⟩) <;> exact Event.noConfusion h
      · exact hfree1 e h
    constructor
    · intro q hq
      rw [hres, ht] at hq
      simp only [List.mem_append, List.mem_cons, List.not_mem_nil, or_false] at hq
      rcases hq with h | h | h
      · exact absurd h (by simp)
      · exact Event.noConfusion h
      · exact hwr q h
    · intro n hn
      rw [hres, hsplit] at hn ⊢
      have hA : ([Event.mkdirE (cacheDirOf w.home)] ++ t1) =
          Event.mkdirE (cacheDirOf w.home) :: t1 := rfl
      rcases hd with hnil | ⟨hsucc, hdcmem⟩
      · subst hnil
        rw [List.append_nil, hA] at hn
        exact absurd hn (not_mem_applyEvents_take fs0 _ _ hhf hfreeA n)
      · have hsucc2 : (firstSpecOf w).succeeds = true := by
          have := hsucc
          rw [St.out_specs, hsp] at this
          exact this
        refine ⟨hsucc2, ?_⟩
        by_cases hle : n ≤ ([Event.mkdirE (cacheDirOf w.home)] ++ t1).length
        · rw [List.take_append_of_le_length hle, hA] at hn
          exact absurd hn (not_mem_applyEvents_take fs0 _ _ hhf hfreeA n)
        · push_neg at hle
          rw [List.take_append_eq_append_take,
            List.take_of_length_le (Nat.le_of_lt hle)]
          apply countDownloads_pos _ dcmd hdl
          rw [hA]
          exact List.mem_append_left _ (List.mem_cons_of_mem _ hdcmem)

theorem C2_download_staging_atomicity_witness :
    (firstSpecOf wAllOk).succeeds = true ∧
    1 ≤ countDownloads ((runMain wAllOk fs0Empty).trace.take 4) :=
  (C2_download_staging_atomicity wAllOk fs0Empty "install_model.py" "foo_bar" [] rfl
    (by decide) (by decide)).2 4 (by decide)

end GreCy
